import Mathlib

/-!
Shallow embedding of the Mafia game server core
(`src/controllers/game.controller.js` together with the Mongoose game
model).  Mongoose `Map` fields are insertion-ordered maps and are embedded
as association lists; the plain-object tally `voteCount` is likewise
embedded as an insertion-ordered association list from names to counts.
JavaScript string truthiness (`null`/`""` falsy) is modelled explicitly
where the source relies on it.
-/

namespace Mafia

inductive Role where
  | unassigned
  | villager
  | mafia
  | godfather
  | detective
  | doctor
deriving DecidableEq, Repr

inductive GState where
  | waiting
  | inProgress
  | finished
deriving DecidableEq, Repr

inductive Phase where
  | waiting
  | nightMafia
  | nightDetective
  | nightDoctor
  | day
  | finished
deriving DecidableEq, Repr

structure Player where
  name : String
  role : Role := .unassigned
  isAlive : Bool := true
  isReady : Bool := false
  socketId : Option String := none
deriving DecidableEq, Repr

/-- Insertion-ordered string map (Mongoose `Map` / JS `Map`). -/
abbrev VoteMap := List (String × String)

structure Game where
  gameId : String := ""
  state : GState := .waiting
  currentPhase : Phase := .waiting
  players : List Player := []
  maxPlayers : Nat := 10
  votes : VoteMap := []
  mafiaVotes : VoteMap := []
  mafiaTarget : Option String := none
  detectiveResult : Option String := none
  doctorSave : Option String := none
  lastKilled : Option String := none
deriving DecidableEq, Repr

/-- `map.has(k)` on an insertion-ordered map. -/
def mhas (m : VoteMap) (k : String) : Bool := m.any (fun q => q.1 == k)

/-- `map.set(k, v)`: overwrite in place if the key exists, else append. -/
def mset (m : VoteMap) (k v : String) : VoteMap :=
  if mhas m k then m.map (fun q => if q.1 = k then (k, v) else q)
  else m ++ [(k, v)]

/-- `Array.from(map.values())`: values in insertion order. -/
def mvalues (m : VoteMap) : List String := m.map (fun q => q.2)

/-- `obj[k] = v` on a plain JS object used as a tally (insertion order for
its string keys). -/
def objSet (o : List (String × Nat)) (k : String) (v : Nat) : List (String × Nat) :=
  if o.any (fun q => q.1 == k) then o.map (fun q => if q.1 = k then (k, v) else q)
  else o ++ [(k, v)]

/-- `voteCount[target]++` (increments an existing key; a vote for a name
that is not a key leaves the tally unchanged — in the source every vote
target is a player name, hence a key). -/
def objInc (o : List (String × Nat)) (k : String) : List (String × Nat) :=
  o.map (fun q => if q.1 = k then (q.1, q.2 + 1) else q)

/-- Reading a tally entry: first matching key, defaulting to 0. -/
def lookup0 (o : List (String × Nat)) (k : String) : Nat :=
  match o.find? (fun q => q.1 == k) with
  | some q => q.2
  | none => 0

/-- The `voteCount` object: every player name zeroed in roster order, then
one increment per recorded vote, in casting order. -/
def tally (ps : List Player) (votes : VoteMap) : List (String × Nat) :=
  (mvalues votes).foldl objInc (ps.foldl (fun o p => objSet o p.name 0) [])

/-- `Math.max(...values)` over a list of naturals (0 on the empty list). -/
def listMax (l : List Nat) : Nat := l.foldl max 0

def isMafiaP (p : Player) : Bool := p.role == Role.mafia || p.role == Role.godfather

def isTownP (p : Player) : Bool :=
  p.role == Role.villager || p.role == Role.detective || p.role == Role.doctor

def aliveMafiaPlayers (ps : List Player) : List Player :=
  ps.filter (fun p => isMafiaP p && p.isAlive)

def livingMafiaCount (ps : List Player) : Nat := (aliveMafiaPlayers ps).length

def aliveCount (ps : List Player) : Nat := (ps.filter (fun p => p.isAlive)).length

def hasAliveRole (ps : List Player) (r : Role) : Bool :=
  ps.any (fun p => p.role == r && p.isAlive)

/-- JS truthiness for a nullable string: `null` and `""` are falsy. -/
def truthy : Option String → Bool
  | none => false
  | some s => s != ""

/-- The candidates with the maximal vote count, in tally-iteration order. -/
def candTargets (ps : List Player) (mv : VoteMap) : List String :=
  let vc := tally ps mv
  let maxVotes := listMax (vc.map (fun q => q.2))
  ((vc.filter (fun q => q.2 == maxVotes)).map (fun q => q.1))

/-- Mafia target selection (lines 148-166 of the controller): unique
maximum wins; on a tie the casting order is scanned backwards and the
first (i.e. most recently cast) vote for a tied candidate wins. -/
def selectMafiaTarget (ps : List Player) (mv : VoteMap) : Option String :=
  let candidates := candTargets ps mv
  if candidates.length == 1 then candidates.head?
  else if candidates.length > 1 then
    (mvalues mv).reverse.find? (fun t => candidates.contains t)
  else none

inductive Event where
  | mafiaVoteCast (recipient : Option String) (voter target : String)
  | investigationResult (recipient : Option String) (target result : String)
  | privateRole (recipient : Option String) (role : Role)
  | mafiaGangEv (recipient : Option String) (names : List String)
  | phaseChanged (phase : Phase) (lastKilled : Option String) (withLastKilled : Bool)
  | playerEliminated (name : String) (killedBy : String)
  | nightResult (msg : String)
  | dayVoteResult (eliminated : String)
  | gameOver (winner : String) (mafiaGang : List String)
  | gameStarted
  | gameUpdated
  | audioStarted
deriving DecidableEq, Repr

def Event.isInvResult : Event → Bool
  | .investigationResult _ _ _ => true
  | _ => false

def Event.isGameOverEv : Event → Bool
  | .gameOver _ _ => true
  | _ => false

/-- Result of one controller operation: the session as returned, the
emitted events, and the error message when the action was rejected. -/
structure Reply where
  game : Game
  events : List Event
  error : Option String
deriving DecidableEq, Repr

/-- `checkWinConditions` (lines 409-428). -/
def checkWinConditions (g : Game) : Game × List Event :=
  let alivePlayers := g.players.filter (fun p => p.isAlive)
  let aliveMafia := (alivePlayers.filter isMafiaP).length
  let aliveVillagers := (alivePlayers.filter isTownP).length
  let mafiaGang := (g.players.filter isMafiaP).map (fun p => p.name)
  if aliveMafia == 0 then
    ({g with state := .finished, currentPhase := .finished},
     [.gameOver "Villagers" mafiaGang])
  else if aliveMafia ≥ aliveVillagers then
    ({g with state := .finished, currentPhase := .finished},
     [.gameOver "Mafia" mafiaGang])
  else (g, [])

/-- `targetPlayer.isAlive = false` after a `find` by name: only the first
player with that name is mutated. -/
def setDeadFirst (ps : List Player) (n : String) : List Player :=
  match ps with
  | [] => []
  | p :: rest =>
    if p.name == n then {p with isAlive := false} :: rest
    else p :: setDeadFirst rest n

/-- The body of `resolveNight` (lines 387-405) up to but excluding the
final `setPhase(game, 'day')` call: kill resolution and the unconditional
clearing of the per-night scratch fields. -/
def resolveNightCore (g : Game) : Game × List Event :=
  let step :=
    if truthy g.mafiaTarget && g.mafiaTarget != g.doctorSave then
      match g.mafiaTarget with
      | some tname =>
        if (g.players.find? (fun p => p.name == tname)).isSome then
          ({g with players := setDeadFirst g.players tname, lastKilled := some tname},
           [Event.playerEliminated tname "mafia",
            Event.nightResult ("Night ends with the death of " ++ tname)])
        else (g, [])
      | none => (g, [])
    else (g, [Event.nightResult "Night ends with no deaths"])
  ({step.1 with mafiaTarget := none, mafiaVotes := [], doctorSave := none,
                detectiveResult := none}, step.2)

/-- `setPhase` (lines 357-384) with an explicit fuel argument standing for
the recursion depth of the source's self-calls.  The recursion chain is
bounded by `nightDetective → nightDoctor → day` (and `day` never recurses),
so fuel 3 reproduces the source exactly on every input. -/
def setPhaseF (fuel : Nat) (g0 : Game) (p : Phase) : Game × List Event :=
  let g := {g0 with currentPhase := p}
  match fuel with
  | 0 => (g, [])
  | fuel + 1 =>
    if p == Phase.nightDetective && !(hasAliveRole g.players .detective) then
      setPhaseF fuel g .nightDoctor
    else if p == Phase.nightDoctor && !(hasAliveRole g.players .doctor) then
      let r1 := resolveNightCore g
      let r2 := setPhaseF fuel r1.1 .day
      (r2.1, r1.2 ++ r2.2)
    else if p == Phase.day then
      let evs := [Event.phaseChanged .day g.lastKilled true]
      let g2 := {g with lastKilled := none}
      (g2, evs ++ [Event.gameUpdated, Event.audioStarted])
    else if p == Phase.nightMafia then
      (g, [Event.phaseChanged .nightMafia none false, Event.gameUpdated])
    else
      (g, [Event.gameUpdated, Event.phaseChanged p none false])

def setPhase (g : Game) (p : Phase) : Game × List Event := setPhaseF 3 g p

/-- `resolveNight` (lines 387-407): core resolution followed by
`setPhase(game, 'day')`. -/
def resolveNight (g : Game) : Game × List Event :=
  let r1 := resolveNightCore g
  let r2 := setPhase r1.1 .day
  (r2.1, r1.2 ++ r2.2)

/-- `mafiaVote` (lines 122-176): validation guards, vote recording, total
vote visibility inside the faction, and resolution exactly when the vote
count equals the recomputed number of living mafia-aligned players. -/
def mafiaVote (g : Game) (voterName targetName : String) : Reply :=
  if !(g.state == GState.inProgress && g.currentPhase == Phase.nightMafia) then
    ⟨g, [], some "Mafia can only vote during mafia phase"⟩
  else if (g.players.find? (fun p =>
      isMafiaP p && p.name == voterName && p.isAlive)).isNone then
    ⟨g, [], some "Invalid voter"⟩
  else if mhas g.mafiaVotes voterName then
    ⟨g, [], some "You have already voted"⟩
  else if (g.players.find? (fun p => p.name == targetName && p.isAlive)).isNone then
    ⟨g, [], some "Invalid target"⟩
  else
    let g1 := {g with mafiaVotes := mset g.mafiaVotes voterName targetName}
    let castEvs := (aliveMafiaPlayers g1.players).map
      (fun p => Event.mafiaVoteCast p.socketId voterName targetName)
    if g1.mafiaVotes.length == livingMafiaCount g1.players then
      let g2 := {g1 with mafiaTarget := selectMafiaTarget g1.players g1.mafiaVotes}
      let r := setPhase g2 .nightDetective
      ⟨r.1, castEvs ++ r.2, none⟩
    else ⟨g1, castEvs, none⟩

/-- The investigation verdict (line 194): Godfather reads as not-Mafia. -/
def investigationVerdict (r : Role) : String :=
  if r == Role.godfather then "-ve" else if r == Role.mafia then "+ve" else "-ve"

/-- `investigate` (lines 179-208). -/
def investigate (g : Game) (investigatorName targetName : String) : Reply :=
  if !(g.state == GState.inProgress && g.currentPhase == Phase.nightDetective) then
    ⟨g, [], some "Detective can only investigate during detective phase"⟩
  else
    match g.players.find? (fun p =>
        p.name == investigatorName && p.role == Role.detective && p.isAlive) with
    | none => ⟨g, [], some "Invalid investigator"⟩
    | some investigator =>
      if truthy g.detectiveResult then
        ⟨g, [], some "You have already investigated"⟩
      else
        match g.players.find? (fun p => p.name == targetName && p.isAlive) with
        | none => ⟨g, [], some "Invalid target"⟩
        | some target =>
          let result := investigationVerdict target.role
          let g1 := {g with detectiveResult := some result}
          let evs := [Event.investigationResult investigator.socketId targetName result]
          let r := setPhase g1 .nightDoctor
          ⟨r.1, evs ++ r.2, none⟩

/-- `doctorSave` (lines 211-233). -/
def doctorSave (g : Game) (doctorName targetName : String) : Reply :=
  if !(g.state == GState.inProgress && g.currentPhase == Phase.nightDoctor) then
    ⟨g, [], some "Doctor can only save during doctor phase"⟩
  else if (g.players.find? (fun p =>
      p.name == doctorName && p.role == Role.doctor && p.isAlive)).isNone then
    ⟨g, [], some "Invalid doctor"⟩
  else if (g.players.find? (fun p => p.name == targetName && p.isAlive)).isNone then
    ⟨g, [], some "Invalid target"⟩
  else
    let g1 := {g with doctorSave := some targetName}
    let r := resolveNight g1
    ⟨r.1, r.2, none⟩

/-- The elimination decision of `dayVote` (lines 257-269): tally,
`Math.ceil(livingPlayers / 2)` threshold (written `(n + 1) / 2` on
naturals), and `candidates[0]` — the first candidate in tally-iteration
order — on a tie at the maximum. -/
def dayEliminated (g : Game) : Option String :=
  let livingPlayers := aliveCount g.players
  let vc := tally g.players g.votes
  let majority := (livingPlayers + 1) / 2
  let maxVotes := listMax (vc.map (fun q => q.2))
  if maxVotes ≥ majority then
    ((vc.filter (fun q => q.2 == maxVotes)).map (fun q => q.1)).head?
  else none

/-- The elimination application of `dayVote` (lines 272-278): kill the
first roster entry with the eliminated name and record it as
`lastKilled`.  The guard `if (eliminated)` is JavaScript truthiness, so an
empty-string name would not be applied. -/
def dayResolveStep (g : Game) : Game × List Event :=
  match dayEliminated g with
  | some e =>
    if e != "" then
      ({g with players := setDeadFirst g.players e, lastKilled := some e},
       [Event.playerEliminated e "vote", Event.dayVoteResult e])
    else (g, ([] : List Event))
  | none => (g, ([] : List Event))

/-- The day-vote resolution block (lines 255-287), entered once every
living player has voted: elimination, unconditional vote clearing, win
check, and the transition to `nightMafia` when the game is not
finished. -/
def dayResolve (g : Game) : Game × List Event :=
  let step := dayResolveStep g
  let g2 := {step.1 with votes := []}
  let w := checkWinConditions g2
  if w.1.state != GState.finished then
    let r := setPhase w.1 .nightMafia
    (r.1, step.2 ++ w.2 ++ r.2)
  else (w.1, step.2 ++ w.2)

/-- `dayVote` (lines 236-294). -/
def dayVote (g : Game) (voterName targetName : String) : Reply :=
  if !(g.state == GState.inProgress && g.currentPhase == Phase.day) then
    ⟨g, [], some "Voting only allowed during day phase"⟩
  else if (g.players.find? (fun p => p.name == voterName && p.isAlive)).isNone then
    ⟨g, [], some "Invalid voter"⟩
  else if mhas g.votes voterName then
    ⟨g, [], some "You have already voted"⟩
  else if (g.players.find? (fun p => p.name == targetName && p.isAlive)).isNone then
    ⟨g, [], some "Invalid target"⟩
  else
    let g1 := {g with votes := mset g.votes voterName targetName}
    if g1.votes.length == aliveCount g1.players then
      let r := dayResolve g1
      ⟨r.1, Event.gameUpdated :: r.2, none⟩
    else ⟨g1, [Event.gameUpdated], none⟩

/-- Role-sequence construction in `startGame` (lines 303-317).  JavaScript
throws a `RangeError` when `Array(len)` receives a negative length, which
happens exactly when the villager remainder is negative; there is no typed
`InsufficientPlayers` condition in the source. -/
def buildRoles (totalPlayers : Nat) : Except String (List Role) :=
  let mafiaCount := totalPlayers / 3
  let godfatherCount := if mafiaCount > 1 then 1 else 0
  let regularMafiaCount := mafiaCount - godfatherCount
  let specialRolesCount := regularMafiaCount + godfatherCount + 2
  if (totalPlayers : Int) - (specialRolesCount : Int) < 0 then
    Except.error "RangeError: Invalid array length"
  else
    Except.ok
      (List.replicate regularMafiaCount Role.mafia ++
       List.replicate godfatherCount Role.godfather ++
       [Role.detective, Role.doctor] ++
       List.replicate (totalPlayers - specialRolesCount) Role.villager)

/-- Modelled from the spec: the Role Assigner's defensive failure. Spec
section 4.1 requires the assigner to fail with a typed
`InsufficientPlayers` condition when the villager remainder is negative;
this defensive check is absent from `startGame` in the source. -/
def buildRolesSpec (totalPlayers : Nat) : Except String (List Role) :=
  let mafiaCount := totalPlayers / 3
  let godfatherCount := if mafiaCount > 1 then 1 else 0
  let regularMafiaCount := mafiaCount - godfatherCount
  let specialRolesCount := regularMafiaCount + godfatherCount + 2
  if (totalPlayers : Int) - (specialRolesCount : Int) < 0 then
    Except.error "InsufficientPlayers"
  else
    Except.ok
      (List.replicate regularMafiaCount Role.mafia ++
       List.replicate godfatherCount Role.godfather ++
       [Role.detective, Role.doctor] ++
       List.replicate (totalPlayers - specialRolesCount) Role.villager)

/-- One Fisher-Yates step: `[a[i], a[j]] = [a[j], a[i]]`. -/
def swapIdx (l : List Role) (i j : Nat) : List Role :=
  if h : i < l.length ∧ j < l.length then
    (l.set i (l.get ⟨j, h.2⟩)).set j (l.get ⟨i, h.1⟩)
  else l

/-- The Fisher-Yates loop of `shuffleArray` (lines 320-327), indices
`len-1` down to `1`; the random source supplies, for index `i`, a number
reduced mod `i+1` to the draw `Math.floor(Math.random() * (i + 1))`. -/
def fyAux (rand : Nat → Nat) (l : List Role) : Nat → List Role
  | 0 => l
  | i + 1 => fyAux rand (swapIdx l (i + 1) (rand (i + 1) % (i + 2))) i

def shuffleArray (rand : Nat → Nat) (l : List Role) : List Role :=
  fyAux rand l (l.length - 1)

/-- `game.players.forEach((player, index) => player.role = shuffled[index])`
(lines 332-334): `shuffled[i]` is assigned to `players[i]` in original
join order. -/
def assignRoles : List Player → List Role → List Player
  | [], _ => []
  | p :: ps, r :: rs => {p with role := r} :: assignRoles ps rs
  | p :: ps, [] => {p with role := Role.unassigned} :: assignRoles ps []

/-- `startGame` (lines 299-355). -/
def startGame (g : Game) (rand : Nat → Nat) : Except String (Game × List Event) :=
  match buildRoles g.players.length with
  | Except.error e => Except.error e
  | Except.ok roles =>
    let shuffledRoles := shuffleArray rand roles
    let players := assignRoles g.players shuffledRoles
    let mafiaGang := (players.filter isMafiaP).map (fun p => p.name)
    let evs :=
      players.map (fun p => Event.privateRole p.socketId p.role) ++
      (players.filter isMafiaP).map (fun p => Event.mafiaGangEv p.socketId mafiaGang) ++
      [Event.gameStarted, Event.gameUpdated]
    Except.ok
      ({g with state := .inProgress, currentPhase := .nightMafia, players := players},
       evs)

/-- Example roster for the mafia-vote worked examples: three mafia-aligned
voters A, B, C and two town targets X, Y, in join order. -/
def exMafiaPlayers : List Player :=
  [{ name := "A", role := .mafia, isAlive := true },
   { name := "B", role := .mafia, isAlive := true },
   { name := "C", role := .godfather, isAlive := true },
   { name := "X", role := .villager, isAlive := true },
   { name := "Y", role := .doctor, isAlive := true }]

/-- Example session for the day-vote worked example: six alive players in
join order T, U, c3, c4, c5, c6, with all six day votes recorded,
producing the 3-3 tie between T and U of section 8 of the spec. -/
def exDayGame : Game :=
  { gameId := "g2", state := .inProgress, currentPhase := .day,
    players :=
      [{ name := "T", role := .mafia, isAlive := true },
       { name := "U", role := .villager, isAlive := true },
       { name := "c3", role := .villager, isAlive := true },
       { name := "c4", role := .villager, isAlive := true },
       { name := "c5", role := .detective, isAlive := true },
       { name := "c6", role := .doctor, isAlive := true }],
    votes := [("T", "T"), ("U", "T"), ("c3", "U"), ("c4", "U"), ("c5", "T"), ("c6", "U")] }

/-- Example session for the night-resolution witness: mafia targeted U,
doctor saved c3, so U dies. -/
def exNightGame : Game :=
  { gameId := "gn", state := .inProgress, currentPhase := .nightDoctor,
    players :=
      [{ name := "T", role := .mafia, isAlive := true },
       { name := "U", role := .villager, isAlive := true },
       { name := "c3", role := .villager, isAlive := true },
       { name := "c4", role := .villager, isAlive := true },
       { name := "c5", role := .detective, isAlive := true },
       { name := "c6", role := .doctor, isAlive := true }],
    mafiaVotes := [("T", "U")], mafiaTarget := some "U",
    doctorSave := some "c3", detectiveResult := some "-ve" }

/-- Example session for the mafia-vote witness: A and B voted for X, the
third mafia-aligned voter C is about to vote for Y and trigger
resolution. -/
def exMafiaGame : Game :=
  { gameId := "gm", state := .inProgress, currentPhase := .nightMafia,
    players := exMafiaPlayers, mafiaVotes := [("A", "X"), ("B", "X")] }

/-- Example roster with a dead detective and an alive doctor. -/
def exSkipGame : Game :=
  { gameId := "gs", state := .inProgress, currentPhase := .nightMafia,
    players :=
      [{ name := "m1", role := .mafia, isAlive := true },
       { name := "d1", role := .detective, isAlive := false },
       { name := "d2", role := .doctor, isAlive := true },
       { name := "v1", role := .villager, isAlive := true }] }

/-- Example roster with both detective and doctor dead. -/
def exSkipGame2 : Game :=
  { gameId := "gs2", state := .inProgress, currentPhase := .nightMafia,
    players :=
      [{ name := "m1", role := .mafia, isAlive := true },
       { name := "d1", role := .detective, isAlive := false },
       { name := "d2", role := .doctor, isAlive := false },
       { name := "v1", role := .villager, isAlive := true }] }

/-- The example day session one vote short of resolution. -/
def exDayGamePartial : Game :=
  { gameId := "g2p", state := .inProgress, currentPhase := .day,
    players :=
      [{ name := "T", role := .mafia, isAlive := true },
       { name := "U", role := .villager, isAlive := true },
       { name := "c3", role := .villager, isAlive := true },
       { name := "c4", role := .villager, isAlive := true },
       { name := "c5", role := .detective, isAlive := true },
       { name := "c6", role := .doctor, isAlive := true }],
    votes := [("T", "T"), ("U", "T"), ("c3", "U"), ("c4", "U"), ("c5", "T")] }

/-- Example session in the detective phase with a Godfather target. -/
def exDetGame : Game :=
  { gameId := "gd", state := .inProgress, currentPhase := .nightDetective,
    players :=
      [{ name := "A", role := .mafia, isAlive := true },
       { name := "C", role := .godfather, isAlive := true },
       { name := "c5", role := .detective, isAlive := true, socketId := some "s5" },
       { name := "c6", role := .doctor, isAlive := true },
       { name := "v", role := .villager, isAlive := true }] }

section PermLemmas

variable {α : Type _}

theorem cons_set_perm (a : α) :
    ∀ (t : List α) (k : Nat) (hk : k < t.length),
      List.Perm (t.get ⟨k, hk⟩ :: t.set k a) (a :: t) := by
  intro t
  induction t with
  | nil => intro k hk; simp at hk
  | cons b s ih =>
    intro k hk
    cases k with
    | zero =>
      simpa using List.Perm.swap a b s
    | succ k =>
      have hk' : k < s.length := by simpa using hk
      have step1 : List.Perm (s.get ⟨k, hk'⟩ :: b :: s.set k a)
          (b :: s.get ⟨k, hk'⟩ :: s.set k a) := List.Perm.swap b _ _
      have step2 : List.Perm (b :: s.get ⟨k, hk'⟩ :: s.set k a) (b :: a :: s) :=
        List.Perm.cons b (ih k hk')
      have step3 : List.Perm (b :: a :: s) (a :: b :: s) := List.Perm.swap a b s
      simpa using (step1.trans step2).trans step3

theorem set_set_perm :
    ∀ (l : List α) (i j : Nat) (hi : i < l.length) (hj : j < l.length),
      List.Perm ((l.set i (l.get ⟨j, hj⟩)).set j (l.get ⟨i, hi⟩)) l := by
  intro l
  induction l with
  | nil => intro i j hi hj; simp at hi
  | cons b s ih =>
    intro i j hi hj
    cases i with
    | zero =>
      cases j with
      | zero => simp
      | succ j =>
        have hj' : j < s.length := by simpa using hj
        simpa using cons_set_perm b s j hj'
    | succ i =>
      have hi' : i < s.length := by simpa using hi
      cases j with
      | zero =>
        simpa using cons_set_perm b s i hi'
      | succ j =>
        have hj' : j < s.length := by simpa using hj
        simpa using List.Perm.cons b (ih i j hi' hj')

end PermLemmas

theorem swapIdx_perm (l : List Role) (i j : Nat) : List.Perm (swapIdx l i j) l := by
  unfold swapIdx
  split
  · next h => exact set_set_perm l i j h.1 h.2
  · exact List.Perm.refl l

theorem fyAux_perm (rand : Nat → Nat) :
    ∀ (n : Nat) (l : List Role), List.Perm (fyAux rand l n) l := by
  intro n
  induction n with
  | zero => intro l; exact List.Perm.refl l
  | succ n ih =>
    intro l
    exact (ih (swapIdx l (n + 1) (rand (n + 1) % (n + 2)))).trans
      (swapIdx_perm l (n + 1) (rand (n + 1) % (n + 2)))

theorem shuffleArray_perm (rand : Nat → Nat) (l : List Role) :
    List.Perm (shuffleArray rand l) l :=
  fyAux_perm rand (l.length - 1) l

theorem objInc_keys (o : List (String × Nat)) (k : String) :
    (objInc o k).map (fun q => q.1) = o.map (fun q => q.1) := by
  unfold objInc
  rw [List.map_map]
  apply List.map_congr_left
  intro q _
  by_cases h : q.1 = k <;> simp [h]

theorem foldl_objInc_keys (l : List String) :
    ∀ o : List (String × Nat),
      ((l.foldl objInc o).map (fun q => q.1)) = o.map (fun q => q.1) := by
  induction l with
  | nil => intro o; rfl
  | cons t l ih =>
    intro o
    simpa [List.foldl_cons, objInc_keys] using (ih (objInc o t)).trans (objInc_keys o t)

theorem objSet_append (o : List (String × Nat)) (k : String) (v : Nat)
    (h : o.any (fun q => q.1 == k) = false) : objSet o k v = o ++ [(k, v)] := by
  simp [objSet, h]

theorem foldl_objSet_zero (ps : List Player) :
    ∀ acc : List (String × Nat),
      (∀ p ∈ ps, acc.any (fun q => q.1 == p.name) = false) →
      (ps.map (fun p => p.name)).Nodup →
      ps.foldl (fun o p => objSet o p.name 0) acc = acc ++ ps.map (fun p => (p.name, 0)) := by
  induction ps with
  | nil => intro acc _ _; simp
  | cons p ps ih =>
    intro acc hacc hnd
    have hp : acc.any (fun q => q.1 == p.name) = false := hacc p (by simp)
    have hnd' : (ps.map (fun q => q.name)).Nodup := by
      simpa using (List.nodup_cons.mp (by simpa using hnd)).2
    have hnotin : p.name ∉ ps.map (fun q => q.name) :=
      (List.nodup_cons.mp (by simpa using hnd)).1
    have hacc' : ∀ q ∈ ps, (acc ++ [(p.name, 0)]).any (fun r => r.1 == q.name) = false := by
      intro q hq
      have h1 : acc.any (fun r => r.1 == q.name) = false := hacc q (by simp [hq])
      have h2 : ¬(p.name = q.name) := by
        intro hEq
        exact hnotin (hEq ▸ List.mem_map_of_mem (fun r => r.name) hq)
      simp [List.any_append, h1, h2]
    rw [List.foldl_cons, objSet_append acc p.name 0 hp, ih (acc ++ [(p.name, 0)]) hacc' hnd']
    simp

theorem tally_keys (ps : List Player) (mv : VoteMap)
    (hnd : (ps.map (fun p => p.name)).Nodup) :
    (tally ps mv).map (fun q => q.1) = ps.map (fun p => p.name) := by
  unfold tally
  rw [foldl_objInc_keys]
  rw [foldl_objSet_zero ps [] (by intro p _; rfl) hnd]
  simp [List.map_map]

theorem le_foldl_max_acc : ∀ (l : List Nat) (acc : Nat), acc ≤ l.foldl max acc := by
  intro l
  induction l with
  | nil => intro acc; exact le_refl acc
  | cons b l ih =>
    intro acc
    exact le_trans (le_max_left acc b) (ih (max acc b))

theorem mem_le_listMax : ∀ (l : List Nat) (a : Nat), a ∈ l → a ≤ listMax l := by
  have key : ∀ (l : List Nat) (acc a : Nat), a ∈ l → a ≤ l.foldl max acc := by
    intro l
    induction l with
    | nil => intro acc a ha; simp at ha
    | cons b l ih =>
      intro acc a ha
      rcases List.mem_cons.mp ha with h | h
      · subst h
        exact le_trans (le_max_right acc a) (le_foldl_max_acc l (max acc a))
      · exact ih (max acc b) a h
  intro l a ha
  exact key l 0 a ha

theorem lookup0_le_listMax (o : List (String × Nat)) (k : String) :
    lookup0 o k ≤ listMax (o.map (fun q => q.2)) := by
  unfold lookup0
  cases hf : o.find? (fun q => q.1 == k) with
  | none => exact Nat.zero_le _
  | some q =>
    exact mem_le_listMax _ _ (List.mem_map_of_mem (fun r => r.2) (List.mem_of_find?_eq_some hf))

theorem lookup0_of_mem_nodup :
    ∀ (o : List (String × Nat)) (q : String × Nat),
      (o.map (fun r => r.1)).Nodup → q ∈ o → lookup0 o q.1 = q.2 := by
  intro o
  induction o with
  | nil => intro q _ hq; simp at hq
  | cons r rest ih =>
    intro q hnd hq
    rcases List.mem_cons.mp hq with h | h
    · subst h
      have hfind : List.find? (fun s => s.1 == q.1) (q :: rest) = some q :=
        List.find?_cons_of_pos rest (by simp)
      simp [lookup0, hfind]
    · have hne : ¬((fun s : String × Nat => s.1 == q.1) r = true) := by
        have hnotin : r.1 ∉ rest.map (fun s => s.1) := (List.nodup_cons.mp hnd).1
        have hmem : q.1 ∈ rest.map (fun s => s.1) := List.mem_map_of_mem (fun s => s.1) h
        simp only [beq_iff_eq]
        intro hEq
        exact hnotin (hEq ▸ hmem)
      have hnd' : (rest.map (fun s => s.1)).Nodup := (List.nodup_cons.mp hnd).2
      have hfind : List.find? (fun s => s.1 == q.1) (r :: rest) =
          List.find? (fun s => s.1 == q.1) rest := List.find?_cons_of_neg rest hne
      simp only [lookup0, hfind]
      exact ih q hnd' h

theorem any_key_objInc (o : List (String × Nat)) (k n : String) :
    (objInc o k).any (fun q => q.1 == n) = o.any (fun q => q.1 == n) := by
  induction o with
  | nil => rfl
  | cons r rest ih =>
    have hhead : ((if r.1 = k then (r.1, r.2 + 1) else r) : String × Nat).1 = r.1 := by
      by_cases h : r.1 = k <;> simp [h]
    simp only [objInc, List.map_cons] at *
    rw [List.any_cons, List.any_cons, ih, hhead]

theorem lookup0_objInc (o : List (String × Nat)) (k n : String) :
    lookup0 (objInc o k) n =
      match o.find? (fun q => q.1 == n) with
      | some q => if q.1 = k then q.2 + 1 else q.2
      | none => 0 := by
  unfold objInc lookup0
  rw [List.find?_map]
  have hp : ((fun q : String × Nat => q.1 == n) ∘ fun q : String × Nat =>
      if q.1 = k then (q.1, q.2 + 1) else q) = fun q : String × Nat => q.1 == n := by
    funext q
    by_cases h : q.1 = k <;> simp [h]
  rw [hp]
  cases hf : o.find? (fun q => q.1 == n) with
  | none => rfl
  | some q => by_cases h : q.1 = k <;> simp [h]

theorem lookup0_objInc_self (o : List (String × Nat)) (n : String)
    (h : o.any (fun q => q.1 == n) = true) :
    lookup0 (objInc o n) n = lookup0 o n + 1 := by
  rw [lookup0_objInc]
  rcases List.any_eq_true.mp h with ⟨q, hq, hqn⟩
  cases hf : o.find? (fun s => s.1 == n) with
  | none => exact absurd hqn (List.find?_eq_none.mp hf q hq)
  | some r =>
    have hrn : r.1 = n := by simpa using List.find?_some hf
    simp [lookup0, hf, hrn]

theorem lookup0_objInc_other (o : List (String × Nat)) (k n : String)
    (hne : ¬(n = k)) : lookup0 (objInc o k) n = lookup0 o n := by
  rw [lookup0_objInc]
  cases hf : o.find? (fun s => s.1 == n) with
  | none => simp [lookup0, hf]
  | some r =>
    have hrn : r.1 = n := by simpa using List.find?_some hf
    have hrk : ¬(r.1 = k) := by rw [hrn]; exact hne
    simp [lookup0, hf, hrk]

theorem foldl_objInc_lookup :
    ∀ (l : List String) (o : List (String × Nat)) (n : String),
      o.any (fun q => q.1 == n) = true →
      lookup0 (l.foldl objInc o) n =
        lookup0 o n + (l.filter (fun t => t == n)).length := by
  intro l
  induction l with
  | nil => intro o n _; simp
  | cons t l ih =>
    intro o n h
    have hkeys : (objInc o t).any (fun q => q.1 == n) = true := by
      rw [any_key_objInc]
      exact h
    rw [List.foldl_cons, ih (objInc o t) n hkeys]
    by_cases ht : t = n
    · subst ht
      rw [lookup0_objInc_self o t h]
      have hlen : (List.filter (fun s => s == t) (t :: l)).length =
          (List.filter (fun s => s == t) l).length + 1 := by
        simp [List.filter_cons]
      rw [hlen]
      omega
    · have hnt : ¬(n = t) := fun hEq => ht hEq.symm
      rw [lookup0_objInc_other o t n hnt]
      have htb : (t == n) = false := by simpa using ht
      simp [List.filter_cons, htb]

theorem setPhaseF_day (n : Nat) (g : Game) :
    setPhaseF (n + 1) g .day =
      ({g with currentPhase := .day, lastKilled := none},
       [Event.phaseChanged .day g.lastKilled true, Event.gameUpdated,
        Event.audioStarted]) := rfl

theorem setPhaseF_nightMafia (n : Nat) (g : Game) :
    setPhaseF (n + 1) g .nightMafia =
      ({g with currentPhase := .nightMafia},
       [Event.phaseChanged .nightMafia none false, Event.gameUpdated]) := rfl

theorem setPhaseF_nightDetective_skip (n : Nat) (g : Game)
    (h : hasAliveRole g.players .detective = false) :
    setPhaseF (n + 1) g .nightDetective =
      setPhaseF n {g with currentPhase := .nightDetective} .nightDoctor := by
  simp [setPhaseF, h]

theorem setPhaseF_nightDetective_alive (n : Nat) (g : Game)
    (h : hasAliveRole g.players .detective = true) :
    setPhaseF (n + 1) g .nightDetective =
      ({g with currentPhase := .nightDetective},
       [Event.gameUpdated, Event.phaseChanged .nightDetective none false]) := by
  simp [setPhaseF, h]

theorem setPhaseF_nightDoctor_skip (n : Nat) (g : Game)
    (h : hasAliveRole g.players .doctor = false) :
    setPhaseF (n + 1) g .nightDoctor =
      (let r1 := resolveNightCore {g with currentPhase := .nightDoctor}
       let r2 := setPhaseF n r1.1 .day
       (r2.1, r1.2 ++ r2.2)) := by
  simp [setPhaseF, h]

theorem setPhaseF_nightDoctor_alive (n : Nat) (g : Game)
    (h : hasAliveRole g.players .doctor = true) :
    setPhaseF (n + 1) g .nightDoctor =
      ({g with currentPhase := .nightDoctor},
       [Event.gameUpdated, Event.phaseChanged .nightDoctor none false]) := by
  simp [setPhaseF, h]

theorem setPhaseF_waiting (n : Nat) (g : Game) :
    setPhaseF (n + 1) g .waiting =
      ({g with currentPhase := .waiting},
       [Event.gameUpdated, Event.phaseChanged .waiting none false]) := rfl

theorem setPhaseF_finished (n : Nat) (g : Game) :
    setPhaseF (n + 1) g .finished =
      ({g with currentPhase := .finished},
       [Event.gameUpdated, Event.phaseChanged .finished none false]) := rfl

theorem setPhase_day (g : Game) :
    setPhase g .day =
      ({g with currentPhase := .day, lastKilled := none},
       [Event.phaseChanged .day g.lastKilled true, Event.gameUpdated,
        Event.audioStarted]) := rfl

theorem resolveNight_eq (g : Game) :
    resolveNight g =
      ((setPhase (resolveNightCore g).1 .day).1,
       (resolveNightCore g).2 ++ (setPhase (resolveNightCore g).1 .day).2) := rfl

theorem resolveNightCore_state (g : Game) :
    (resolveNightCore g).1.state = g.state := by
  unfold resolveNightCore
  split
  · split
    · split <;> rfl
    · rfl
  · rfl

theorem resolveNightCore_scratch (g : Game) :
    (resolveNightCore g).1.mafiaTarget = none ∧
    (resolveNightCore g).1.mafiaVotes = [] ∧
    (resolveNightCore g).1.doctorSave = none ∧
    (resolveNightCore g).1.detectiveResult = none := by
  unfold resolveNightCore
  exact ⟨rfl, rfl, rfl, rfl⟩

theorem resolveNightCore_no_gameOver (g : Game) :
    (resolveNightCore g).2.filter Event.isGameOverEv = [] := by
  unfold resolveNightCore
  split
  · split
    · split <;> rfl
    · rfl
  · rfl

theorem resolveNightCore_no_invResult (g : Game) :
    (resolveNightCore g).2.filter Event.isInvResult = [] := by
  unfold resolveNightCore
  split
  · split
    · split <;> rfl
    · rfl
  · rfl

theorem setPhaseF_state : ∀ (fuel : Nat) (g : Game) (p : Phase),
    (setPhaseF fuel g p).1.state = g.state := by
  intro fuel
  induction fuel with
  | zero => intro g p; rfl
  | succ n ih =>
    intro g p
    cases p with
    | day => rw [setPhaseF_day]
    | nightMafia => rw [setPhaseF_nightMafia]
    | waiting => rw [setPhaseF_waiting]
    | finished => rw [setPhaseF_finished]
    | nightDetective =>
      cases hdet : hasAliveRole g.players .detective with
      | false => rw [setPhaseF_nightDetective_skip n g hdet, ih]
      | true => rw [setPhaseF_nightDetective_alive n g hdet]
    | nightDoctor =>
      cases hdoc : hasAliveRole g.players .doctor with
      | false =>
        rw [setPhaseF_nightDoctor_skip n g hdoc]
        show (setPhaseF n
          (resolveNightCore {g with currentPhase := .nightDoctor}).1 .day).1.state = g.state
        rw [ih, resolveNightCore_state]
      | true => rw [setPhaseF_nightDoctor_alive n g hdoc]

theorem setPhaseF_no_gameOver : ∀ (fuel : Nat) (g : Game) (p : Phase),
    (setPhaseF fuel g p).2.filter Event.isGameOverEv = [] := by
  intro fuel
  induction fuel with
  | zero => intro g p; rfl
  | succ n ih =>
    intro g p
    cases p with
    | day => rw [setPhaseF_day]; rfl
    | nightMafia => rw [setPhaseF_nightMafia]; rfl
    | waiting => rw [setPhaseF_waiting]; rfl
    | finished => rw [setPhaseF_finished]; rfl
    | nightDetective =>
      cases hdet : hasAliveRole g.players .detective with
      | false => rw [setPhaseF_nightDetective_skip n g hdet, ih]
      | true => rw [setPhaseF_nightDetective_alive n g hdet]; rfl
    | nightDoctor =>
      cases hdoc : hasAliveRole g.players .doctor with
      | false =>
        rw [setPhaseF_nightDoctor_skip n g hdoc]
        show ((resolveNightCore {g with currentPhase := .nightDoctor}).2 ++
          (setPhaseF n (resolveNightCore {g with currentPhase := .nightDoctor}).1
            .day).2).filter Event.isGameOverEv = []
        rw [List.filter_append, ih, resolveNightCore_no_gameOver]
        rfl
      | true => rw [setPhaseF_nightDoctor_alive n g hdoc]; rfl

theorem setPhaseF_no_invResult : ∀ (fuel : Nat) (g : Game) (p : Phase),
    (setPhaseF fuel g p).2.filter Event.isInvResult = [] := by
  intro fuel
  induction fuel with
  | zero => intro g p; rfl
  | succ n ih =>
    intro g p
    cases p with
    | day => rw [setPhaseF_day]; rfl
    | nightMafia => rw [setPhaseF_nightMafia]; rfl
    | waiting => rw [setPhaseF_waiting]; rfl
    | finished => rw [setPhaseF_finished]; rfl
    | nightDetective =>
      cases hdet : hasAliveRole g.players .detective with
      | false => rw [setPhaseF_nightDetective_skip n g hdet, ih]
      | true => rw [setPhaseF_nightDetective_alive n g hdet]; rfl
    | nightDoctor =>
      cases hdoc : hasAliveRole g.players .doctor with
      | false =>
        rw [setPhaseF_nightDoctor_skip n g hdoc]
        show ((resolveNightCore {g with currentPhase := .nightDoctor}).2 ++
          (setPhaseF n (resolveNightCore {g with currentPhase := .nightDoctor}).1
            .day).2).filter Event.isInvResult = []
        rw [List.filter_append, ih, resolveNightCore_no_invResult]
        rfl
      | true => rw [setPhaseF_nightDoctor_alive n g hdoc]; rfl

theorem checkWinConditions_preserves (g : Game) :
    (checkWinConditions g).1.players = g.players ∧
    (checkWinConditions g).1.votes = g.votes ∧
    (checkWinConditions g).1.mafiaVotes = g.mafiaVotes ∧
    (checkWinConditions g).1.lastKilled = g.lastKilled := by
  refine ⟨?_, ?_, ?_, ?_⟩ <;>
    (unfold checkWinConditions; dsimp only; (split <;> try split) <;> rfl)

theorem lookup0_init_zero (ps : List Player) (n : String) :
    lookup0 (ps.map (fun p => (p.name, 0))) n = 0 := by
  unfold lookup0
  cases hf : (ps.map (fun p => (p.name, 0))).find? (fun q => q.1 == n) with
  | none => rfl
  | some q =>
    have hq := List.mem_of_find?_eq_some hf
    rcases List.mem_map.mp hq with ⟨p, _, hpq⟩
    rw [← hpq]

theorem tally_count (ps : List Player) (mv : VoteMap) (n : String)
    (hnd : (ps.map (fun p => p.name)).Nodup) (hn : n ∈ ps.map (fun p => p.name)) :
    lookup0 (tally ps mv) n = ((mvalues mv).filter (fun t => t == n)).length := by
  unfold tally
  rw [foldl_objSet_zero ps [] (fun p _ => rfl) hnd]
  simp only [List.nil_append]
  have hany : (ps.map (fun p => (p.name, 0))).any (fun q => q.1 == n) = true := by
    rcases List.mem_map.mp hn with ⟨p, hp, hpn⟩
    exact List.any_eq_true.mpr
      ⟨(p.name, 0), List.mem_map_of_mem (fun q => (q.name, 0)) hp, by simp [hpn]⟩
  rw [foldl_objInc_lookup (mvalues mv) _ n hany, lookup0_init_zero]
  omega

theorem tally_keys_nodup (ps : List Player) (mv : VoteMap)
    (hnd : (ps.map (fun p => p.name)).Nodup) :
    ((tally ps mv).map (fun q => q.1)).Nodup := by
  rw [tally_keys ps mv hnd]
  exact hnd

theorem filter_keys_eq :
    ∀ (o : List (String × Nat)) (m : Nat), (o.map (fun q => q.1)).Nodup →
      (o.filter (fun q => q.2 == m)).map (fun q => q.1) =
        (o.map (fun q => q.1)).filter (fun n => lookup0 o n == m) := by
  intro o
  induction o with
  | nil => intro m _; rfl
  | cons r rest ih =>
    intro m hnd
    have hnotin : r.1 ∉ rest.map (fun s => s.1) := (List.nodup_cons.mp hnd).1
    have hnd' : (rest.map (fun s => s.1)).Nodup := (List.nodup_cons.mp hnd).2
    have hr : lookup0 (r :: rest) r.1 = r.2 := by
      have hfind : List.find? (fun s => s.1 == r.1) (r :: rest) = some r :=
        List.find?_cons_of_pos rest (by simp)
      simp [lookup0, hfind]
    have htail : ∀ n ∈ rest.map (fun s => s.1), lookup0 (r :: rest) n = lookup0 rest n := by
      intro n hn
      have hne : ¬((fun s : String × Nat => s.1 == n) r = true) := by
        simp only [beq_iff_eq]
        intro hEq
        exact hnotin (hEq ▸ hn)
      have hfind : List.find? (fun s : String × Nat => s.1 == n) (r :: rest) =
          List.find? (fun s : String × Nat => s.1 == n) rest :=
        @List.find?_cons_of_neg _ (fun s : String × Nat => s.1 == n) r rest hne
      simp [lookup0, hfind]
    have hcong : (rest.map (fun s => s.1)).filter (fun n => lookup0 (r :: rest) n == m) =
        (rest.map (fun s => s.1)).filter (fun n => lookup0 rest n == m) :=
      List.filter_congr (fun n hn => by rw [htail n hn])
    simp only [List.map_cons, List.filter_cons, hr, hcong]
    by_cases hv : (r.2 == m) = true
    · simp only [hv, if_true, List.map_cons]
      rw [ih m hnd']
    · simp only [Bool.not_eq_true] at hv
      simp only [hv, Bool.false_eq_true, if_false]
      rw [ih m hnd']

theorem assignRoles_spec :
    ∀ (ps : List Player) (rs : List Role), ps.length = rs.length →
      (assignRoles ps rs).map (fun p => p.role) = rs ∧
      (assignRoles ps rs).map (fun p => p.name) = ps.map (fun p => p.name) := by
  intro ps
  induction ps with
  | nil =>
    intro rs h
    cases rs with
    | nil => exact ⟨rfl, rfl⟩
    | cons r rs => simp at h
  | cons p ps ih =>
    intro rs h
    cases rs with
    | nil => simp at h
    | cons r rs =>
      have h' : ps.length = rs.length := by simpa using h
      obtain ⟨h1, h2⟩ := ih rs h'
      exact ⟨by simp [assignRoles, h1], by simp [assignRoles, h2]⟩

theorem setPhase_nightMafia (g : Game) :
    setPhase g .nightMafia =
      ({g with currentPhase := .nightMafia},
       [Event.phaseChanged .nightMafia none false, Event.gameUpdated]) := rfl

theorem checkWin_state (g : Game) :
    (checkWinConditions g).1.state = GState.finished ∨ checkWinConditions g = (g, []) := by
  unfold checkWinConditions
  dsimp only
  split
  · left; rfl
  · split
    · left; rfl
    · right; rfl

theorem dayResolveStep_state (g : Game) : (dayResolveStep g).1.state = g.state := by
  unfold dayResolveStep
  split
  · split <;> rfl
  · rfl

theorem dayResolve_fields (g : Game) :
    (dayResolve g).1.players = (dayResolveStep g).1.players ∧
    (dayResolve g).1.lastKilled = (dayResolveStep g).1.lastKilled ∧
    (dayResolve g).1.votes = [] := by
  unfold dayResolve
  dsimp only
  by_cases hc : ((checkWinConditions
      {(dayResolveStep g).1 with votes := []}).1.state != GState.finished) = true
  · rw [if_pos hc]
    rw [setPhase_nightMafia]
    dsimp only
    obtain ⟨hp, hv, _, hl⟩ :=
      checkWinConditions_preserves {(dayResolveStep g).1 with votes := []}
    exact ⟨hp, hl, hv⟩
  · rw [if_neg hc]
    obtain ⟨hp, hv, _, hl⟩ :=
      checkWinConditions_preserves {(dayResolveStep g).1 with votes := []}
    exact ⟨hp, hl, hv⟩

theorem dayResolve_state (g : Game) :
    (dayResolve g).1.state = GState.finished ∨
    ((dayResolve g).1.state = g.state ∧
     (dayResolve g).1.currentPhase = Phase.nightMafia) := by
  unfold dayResolve
  dsimp only
  by_cases hc : ((checkWinConditions
      {(dayResolveStep g).1 with votes := []}).1.state != GState.finished) = true
  · right
    rw [if_pos hc]
    rw [setPhase_nightMafia]
    dsimp only
    constructor
    · rcases checkWin_state {(dayResolveStep g).1 with votes := []} with hfin | hunch
      · exact absurd hfin (bne_iff_ne.mp hc)
      · rw [hunch]
        exact dayResolveStep_state g
    · rfl
  · left
    rw [if_neg hc]
    by_contra hne
    exact hc (bne_iff_ne.mpr hne)

/-- C4: win evaluation over a session roster.  If no Mafia/Godfather is
alive, Villagers win; else if alive mafia meet or exceed alive town
(Villager/Detective/Doctor), Mafia win; otherwise the session is returned
unchanged (state and phase untouched).  On a verdict the state and phase
become Finished and the `gameOver` event discloses the full mafia roster by
name. -/
theorem checkWinConditions_verdict (g : Game) :
    (((g.players.filter (fun p => p.isAlive)).filter isMafiaP).length = 0 →
      checkWinConditions g =
        ({g with state := .finished, currentPhase := .finished},
         [Event.gameOver "Villagers"
            ((g.players.filter isMafiaP).map (fun p => p.name))])) ∧
    (((g.players.filter (fun p => p.isAlive)).filter isMafiaP).length ≠ 0 →
      ((g.players.filter (fun p => p.isAlive)).filter isMafiaP).length ≥
        ((g.players.filter (fun p => p.isAlive)).filter isTownP).length →
      checkWinConditions g =
        ({g with state := .finished, currentPhase := .finished},
         [Event.gameOver "Mafia"
            ((g.players.filter isMafiaP).map (fun p => p.name))])) ∧
    (((g.players.filter (fun p => p.isAlive)).filter isMafiaP).length ≠ 0 →
      ((g.players.filter (fun p => p.isAlive)).filter isMafiaP).length <
        ((g.players.filter (fun p => p.isAlive)).filter isTownP).length →
      checkWinConditions g = (g, [])) := by
  refine ⟨?_, ?_, ?_⟩
  · intro h
    unfold checkWinConditions
    dsimp only
    have hb : (((g.players.filter (fun p => p.isAlive)).filter isMafiaP).length == 0) = true := by
      rw [h]
      rfl
    rw [if_pos hb]
  · intro h1 h2
    unfold checkWinConditions
    dsimp only
    have hb : ¬((((g.players.filter (fun p => p.isAlive)).filter isMafiaP).length == 0) = true) := by
      simp only [beq_iff_eq]
      exact h1
    rw [if_neg hb, if_pos h2]
  · intro h1 h2
    unfold checkWinConditions
    dsimp only
    have hb : ¬((((g.players.filter (fun p => p.isAlive)).filter isMafiaP).length == 0) = true) := by
      simp only [beq_iff_eq]
      exact h1
    rw [if_neg hb, if_neg (not_le.mpr h2)]

/-- C4 witness: the example day session has one alive mafia against five
alive town players, so no verdict is returned and the session is
unchanged. -/
theorem checkWinConditions_verdict_witness :
    checkWinConditions exDayGame = (exDayGame, []) :=
  (checkWinConditions_verdict exDayGame).2.2 (by decide) (by decide)

/-- C9 counterexample: at player count 1 the villager remainder is
negative; the source's role construction fails with the untyped JavaScript
`RangeError` thrown by `Array(negative)`, not with the typed
`InsufficientPlayers` condition that the spec's assigner contract
requires (`buildRolesSpec` models the spec's words). -/
theorem buildRoles_one_rangeError :
    buildRoles 1 = Except.error "RangeError: Invalid array length" ∧
    buildRolesSpec 1 = Except.error "InsufficientPlayers" ∧
    buildRoles 1 ≠ buildRolesSpec 1 := by
  refine ⟨rfl, rfl, ?_⟩
  intro h
  have h2 : ("RangeError: Invalid array length" : String) = "InsufficientPlayers" := by
    injection h
  exact absurd h2 (by decide)

/-- C9 (amended): whenever the villager remainder
`N - regularMafiaCount - godfatherCount - 2` is negative (exactly when
N ≤ 1), the role construction fails — but by throwing an untyped
`RangeError` from the negative-length array literal, and the assigner
never produces a typed `InsufficientPlayers` condition for any N. -/
theorem buildRoles_negative_remainder (N : Nat) :
    (N ≤ 1 → buildRoles N = Except.error "RangeError: Invalid array length") ∧
    buildRoles N ≠ Except.error "InsufficientPlayers" := by
  constructor
  · intro h
    interval_cases N <;> rfl
  · intro h
    unfold buildRoles at h
    dsimp only at h
    split at h <;> (try split at h) <;>
      first
        | (injection h with h2; exact absurd h2 (by decide))
        | exact Except.noConfusion h

/-- C9 witness: the amended theorem applied at N = 1. -/
theorem buildRoles_negative_remainder_witness :
    buildRoles 1 = Except.error "RangeError: Invalid array length" :=
  (buildRoles_negative_remainder 1).1 (by decide)

/-- C8: every rejected action (wrong phase, invalid or dead actor, invalid
or dead target, duplicate vote, repeated single-actor action) returns its
error synchronously with the session unchanged and no events emitted. -/
theorem rejected_actions_unchanged (g : Game) (a b : String) :
    ((mafiaVote g a b).error ≠ none →
      (mafiaVote g a b).game = g ∧ (mafiaVote g a b).events = []) ∧
    ((dayVote g a b).error ≠ none →
      (dayVote g a b).game = g ∧ (dayVote g a b).events = []) ∧
    ((investigate g a b).error ≠ none →
      (investigate g a b).game = g ∧ (investigate g a b).events = []) ∧
    ((doctorSave g a b).error ≠ none →
      (doctorSave g a b).game = g ∧ (doctorSave g a b).events = []) := by
  refine ⟨?_, ?_, ?_, ?_⟩
  · unfold mafiaVote
    dsimp only
    split
    · intro _; exact ⟨rfl, rfl⟩
    · split
      · intro _; exact ⟨rfl, rfl⟩
      · split
        · intro _; exact ⟨rfl, rfl⟩
        · split
          · intro _; exact ⟨rfl, rfl⟩
          · split
            · intro h; exact absurd rfl h
            · intro h; exact absurd rfl h
  · unfold dayVote
    dsimp only
    split
    · intro _; exact ⟨rfl, rfl⟩
    · split
      · intro _; exact ⟨rfl, rfl⟩
      · split
        · intro _; exact ⟨rfl, rfl⟩
        · split
          · intro _; exact ⟨rfl, rfl⟩
          · split
            · intro h; exact absurd rfl h
            · intro h; exact absurd rfl h
  · unfold investigate
    dsimp only
    split
    · intro _; exact ⟨rfl, rfl⟩
    · split
      · intro _; exact ⟨rfl, rfl⟩
      · split
        · intro _; exact ⟨rfl, rfl⟩
        · split
          · intro _; exact ⟨rfl, rfl⟩
          · intro h; exact absurd rfl h
  · unfold doctorSave
    dsimp only
    split
    · intro _; exact ⟨rfl, rfl⟩
    · split
      · intro _; exact ⟨rfl, rfl⟩
      · split
        · intro _; exact ⟨rfl, rfl⟩
        · intro h; exact absurd rfl h

/-- C8 witness: a mafia vote submitted during the day phase is rejected
and the session comes back unchanged with no events. -/
theorem rejected_actions_unchanged_witness :
    (mafiaVote exDayGame "T" "U").error ≠ none ∧
    (mafiaVote exDayGame "T" "U").game = exDayGame ∧
    (mafiaVote exDayGame "T" "U").events = [] := by
  have h : (mafiaVote exDayGame "T" "U").error ≠ none := by decide
  have h2 := (rejected_actions_unchanged exDayGame "T" "U").1 h
  exact ⟨h, h2.1, h2.2⟩

/-- C5: night resolution.  When a mafia target is set (a nonempty name of
an existing player) and differs from the doctor's saved target, that
player dies: `lastKilled` records the name before the day transition
consumes it, the roster is updated by `setDeadFirst`, and the day
`phaseChanged` event carries the name.  When there is no target or the
target equals the save (doctor self-save included) nobody dies.  In every
case the four per-night scratch fields are cleared unconditionally and the
phase advances to Day.  With distinct player names `setDeadFirst` flips
exactly the named player's `isAlive` flag and touches nobody else. -/
theorem resolveNight_policy :
    (∀ (g : Game) (tn : String), g.mafiaTarget = some tn → tn ≠ "" →
       g.doctorSave ≠ some tn →
       (g.players.find? (fun p => p.name == tn)).isSome = true →
       (resolveNightCore g).1.lastKilled = some tn ∧
       (resolveNight g).1.players = setDeadFirst g.players tn ∧
       Event.phaseChanged .day (some tn) true ∈ (resolveNight g).2) ∧
    (∀ g : Game, g.mafiaTarget = none ∨ g.mafiaTarget = g.doctorSave →
       (resolveNight g).1.players = g.players) ∧
    (∀ g : Game,
       (resolveNight g).1.mafiaTarget = none ∧
       (resolveNight g).1.mafiaVotes = [] ∧
       (resolveNight g).1.doctorSave = none ∧
       (resolveNight g).1.detectiveResult = none ∧
       (resolveNight g).1.currentPhase = Phase.day) ∧
    (∀ (ps : List Player) (tn : String), (ps.map (fun p => p.name)).Nodup →
       setDeadFirst ps tn =
         ps.map (fun p => if p.name = tn then {p with isAlive := false} else p)) := by
  refine ⟨?_, ?_, ?_, ?_⟩
  · intro g tn h1 h2 h3 h4
    have hcond : (truthy g.mafiaTarget && g.mafiaTarget != g.doctorSave) = true := by
      rw [h1]
      simp only [truthy, Bool.and_eq_true, bne_iff_ne, ne_eq]
      exact ⟨h2, fun hEq => h3 hEq.symm⟩
    have hstep : resolveNightCore g =
        ({g with players := setDeadFirst g.players tn, lastKilled := some tn,
                 mafiaTarget := none, mafiaVotes := [], doctorSave := none,
                 detectiveResult := none},
         [Event.playerEliminated tn "mafia",
          Event.nightResult ("Night ends with the death of " ++ tn)]) := by
      unfold resolveNightCore
      dsimp only
      rw [hcond]
      rw [if_pos rfl]
      rw [h1]
      dsimp only
      rw [if_pos h4]
    refine ⟨by rw [hstep], ?_, ?_⟩
    · rw [resolveNight_eq, hstep, setPhase_day]
    · rw [resolveNight_eq, hstep, setPhase_day]
      simp
  · intro g h
    have hcond : (truthy g.mafiaTarget && g.mafiaTarget != g.doctorSave) = false := by
      rcases h with h | h
      · simp [h, truthy]
      · simp [h]
    have hstep : (resolveNightCore g).1.players = g.players := by
      unfold resolveNightCore
      dsimp only
      rw [hcond]
      rfl
    rw [resolveNight_eq, setPhase_day]
    exact hstep
  · intro g
    obtain ⟨h1, h2, h3, h4⟩ := resolveNightCore_scratch g
    rw [resolveNight_eq, setPhase_day]
    exact ⟨h1, h2, h3, h4, rfl⟩
  · intro ps tn hnd
    induction ps with
    | nil => rfl
    | cons p rest ih =>
      have hnotin : p.name ∉ rest.map (fun q => q.name) := (List.nodup_cons.mp (by simpa using hnd)).1
      have hnd' : (rest.map (fun q => q.name)).Nodup := (List.nodup_cons.mp (by simpa using hnd)).2
      by_cases hp : p.name = tn
      · have hb : (p.name == tn) = true := by simpa using hp
        have htail : rest.map (fun q => if q.name = tn then {q with isAlive := false} else q) =
            rest := by
          have : ∀ q ∈ rest, (if q.name = tn then {q with isAlive := false} else q) = q := by
            intro q hq
            have : ¬(q.name = tn) := by
              intro hEq
              exact hnotin (by rw [← hp] at hEq; exact hEq ▸ List.mem_map_of_mem (fun r => r.name) hq)
            rw [if_neg this]
          rw [List.map_congr_left this, List.map_id']
        simp only [setDeadFirst, hb, if_true, List.map_cons, if_pos hp, htail]
      · have hb : (p.name == tn) = false := by simpa using hp
        simp only [setDeadFirst, hb, Bool.false_eq_true, if_false, List.map_cons, if_neg hp]
        rw [ih hnd']

/-- C5 witness: in the example night session the mafia target U differs
from the doctor's save c3, so U dies, is recorded, and the session reaches
Day with the scratch fields cleared. -/
theorem resolveNight_policy_witness :
    (resolveNightCore exNightGame).1.lastKilled = some "U" ∧
    (resolveNight exNightGame).1.players = setDeadFirst exNightGame.players "U" ∧
    Event.phaseChanged .day (some "U") true ∈ (resolveNight exNightGame).2 :=
  resolveNight_policy.1 exNightGame "U" rfl (by decide) (by decide) (by decide)

/-- C6: phase skipping.  Requesting `NightDetective` with no alive
Detective behaves exactly like requesting `NightDoctor` (recursive skip);
when the Doctor is alive this lands in `NightDoctor` with only the phase
changed (no detective ledger is opened, `detectiveResult` and everything
else untouched).  Requesting `NightDoctor` with no alive Doctor
immediately runs night resolution on the session and lands in `Day`. -/
theorem setPhase_skip_policy :
    (∀ g : Game, hasAliveRole g.players .detective = false →
       setPhase g .nightDetective = setPhase g .nightDoctor) ∧
    (∀ g : Game, hasAliveRole g.players .detective = false →
       hasAliveRole g.players .doctor = true →
       setPhase g .nightDetective =
         ({g with currentPhase := .nightDoctor},
          [Event.gameUpdated, Event.phaseChanged .nightDoctor none false])) ∧
    (∀ g : Game, hasAliveRole g.players .doctor = false →
       setPhase g .nightDoctor = resolveNight {g with currentPhase := .nightDoctor} ∧
       (setPhase g .nightDoctor).1.currentPhase = Phase.day) := by
  have skipDet : ∀ g : Game, hasAliveRole g.players .detective = false →
      setPhase g .nightDetective =
        setPhaseF 2 {g with currentPhase := .nightDetective} .nightDoctor :=
    fun g h => setPhaseF_nightDetective_skip 2 g h
  have doc3 : ∀ g : Game, hasAliveRole g.players .doctor = false →
      setPhase g .nightDoctor =
        ((setPhaseF 2 (resolveNightCore {g with currentPhase := .nightDoctor}).1 .day).1,
         (resolveNightCore {g with currentPhase := .nightDoctor}).2 ++
           (setPhaseF 2 (resolveNightCore {g with currentPhase := .nightDoctor}).1 .day).2) :=
    fun g h => setPhaseF_nightDoctor_skip 2 g h
  refine ⟨?_, ?_, ?_⟩
  · intro g hdet
    rw [skipDet g hdet]
    cases hdoc : hasAliveRole g.players .doctor with
    | true =>
      have e1 : setPhaseF 2 {g with currentPhase := .nightDetective} .nightDoctor =
          ({g with currentPhase := .nightDoctor},
           [Event.gameUpdated, Event.phaseChanged .nightDoctor none false]) :=
        setPhaseF_nightDoctor_alive 1 {g with currentPhase := .nightDetective} hdoc
      have e2 : setPhase g .nightDoctor =
          ({g with currentPhase := .nightDoctor},
           [Event.gameUpdated, Event.phaseChanged .nightDoctor none false]) :=
        setPhaseF_nightDoctor_alive 2 g hdoc
      rw [e1, e2]
    | false =>
      have e1 : setPhaseF 2 {g with currentPhase := .nightDetective} .nightDoctor =
          ((setPhaseF 1 (resolveNightCore {g with currentPhase := .nightDoctor}).1 .day).1,
           (resolveNightCore {g with currentPhase := .nightDoctor}).2 ++
             (setPhaseF 1 (resolveNightCore {g with currentPhase := .nightDoctor}).1 .day).2) :=
        setPhaseF_nightDoctor_skip 1 {g with currentPhase := .nightDetective} hdoc
      have e3 : setPhaseF 1 (resolveNightCore {g with currentPhase := .nightDoctor}).1 .day =
          setPhaseF 2 (resolveNightCore {g with currentPhase := .nightDoctor}).1 .day := rfl
      rw [e1, e3, doc3 g hdoc]
  · intro g hdet hdoc
    rw [skipDet g hdet]
    exact setPhaseF_nightDoctor_alive 1 {g with currentPhase := .nightDetective} hdoc
  · intro g hdoc
    constructor
    · have e4 : setPhaseF 2 (resolveNightCore {g with currentPhase := .nightDoctor}).1 .day =
          setPhase (resolveNightCore {g with currentPhase := .nightDoctor}).1 .day := rfl
      rw [doc3 g hdoc, e4, resolveNight_eq]
    · rw [doc3 g hdoc]
      have e5 : setPhaseF 2 (resolveNightCore {g with currentPhase := .nightDoctor}).1 .day =
          ({(resolveNightCore {g with currentPhase := .nightDoctor}).1 with
              currentPhase := .day, lastKilled := none},
           [Event.phaseChanged .day
              (resolveNightCore {g with currentPhase := .nightDoctor}).1.lastKilled true,
            Event.gameUpdated, Event.audioStarted]) :=
        setPhaseF_day 1 (resolveNightCore {g with currentPhase := .nightDoctor}).1
      rw [e5]

/-- C6 witness: in a roster with the detective dead and the doctor alive,
requesting `NightDetective` lands directly in `NightDoctor` with only the
phase changed; with both dead, requesting `NightDoctor` resolves the
night and lands in `Day`. -/
theorem setPhase_skip_policy_witness :
    setPhase exSkipGame .nightDetective =
      ({exSkipGame with currentPhase := .nightDoctor},
       [Event.gameUpdated, Event.phaseChanged .nightDoctor none false]) ∧
    (setPhase exSkipGame2 .nightDoctor).1.currentPhase = Phase.day :=
  ⟨(setPhase_skip_policy.2.1 exSkipGame (by decide) (by decide)),
   ((setPhase_skip_policy.2.2 exSkipGame2 (by decide)).2)⟩

/-- C7: detective investigation.  The verdict is the negative signal for
Godfather and for every non-Mafia role, and the positive signal exactly
for plain Mafia; on a valid investigation (right phase, alive detective,
no prior result, alive target) the only `investigationResult` event in the
reply is addressed to the investigator's own socket — a private,
single-recipient delivery. -/
theorem investigate_policy :
    (investigationVerdict .godfather = "-ve" ∧
     investigationVerdict .villager = "-ve" ∧
     investigationVerdict .detective = "-ve" ∧
     investigationVerdict .doctor = "-ve" ∧
     investigationVerdict .mafia = "+ve") ∧
    (∀ (g : Game) (iname tname : String) (inv tgt : Player),
       g.state = .inProgress → g.currentPhase = .nightDetective →
       g.players.find? (fun p =>
         p.name == iname && p.role == Role.detective && p.isAlive) = some inv →
       truthy g.detectiveResult = false →
       g.players.find? (fun p => p.name == tname && p.isAlive) = some tgt →
       (investigate g iname tname).error = none ∧
       (investigate g iname tname).events.filter Event.isInvResult =
         [Event.investigationResult inv.socketId tname
            (investigationVerdict tgt.role)]) := by
  refine ⟨⟨rfl, rfl, rfl, rfl, rfl⟩, ?_⟩
  intro g iname tname inv tgt h1 h2 h3 h4 h5
  have hguard : (!(g.state == GState.inProgress &&
      g.currentPhase == Phase.nightDetective)) = false := by
    rw [h1, h2]
    rfl
  unfold investigate
  rw [hguard, h3, h4, h5]
  simp only [Bool.false_eq_true, if_false]
  refine ⟨?_, ?_⟩
  · trivial
  dsimp only
  rw [List.filter_append]
  simp only [setPhase]
  rw [setPhaseF_no_invResult]
  simp [Event.isInvResult]

/-- C7 witness: in a session in the detective phase, investigating the
Godfather C yields the negative signal delivered only to the detective's
socket. -/
theorem investigate_policy_witness :
    (investigate exDetGame "c5" "C").error = none ∧
    (investigate exDetGame "c5" "C").events.filter Event.isInvResult =
      [Event.investigationResult (some "s5") "C" "-ve"] := by
  have h := investigate_policy.2 exDetGame "c5" "C"
    { name := "c5", role := .detective, isAlive := true, socketId := some "s5" }
    { name := "C", role := .godfather, isAlive := true }
    rfl rfl (by decide) (by decide) (by decide)
  exact h

/-- C10: night resolution never evaluates win conditions — for every
session the state is preserved verbatim (an InProgress session stays
InProgress even if the kill leaves mafia at parity), the phase lands on
Day, and no `gameOver` event is emitted; the ledger operations that can
cascade through night resolution (`mafiaVote`, `investigate`,
`doctorSave`) likewise never emit `gameOver`.  Win evaluation happens
only inside day-vote resolution: `dayResolve` either finishes the game or
leaves the state untouched and moves to `nightMafia`. -/
theorem night_no_win_evaluation :
    (∀ g : Game,
       (resolveNight g).1.state = g.state ∧
       (resolveNight g).1.currentPhase = Phase.day ∧
       (resolveNight g).2.filter Event.isGameOverEv = []) ∧
    (∀ (g : Game) (a b : String),
       (mafiaVote g a b).events.filter Event.isGameOverEv = []) ∧
    (∀ (g : Game) (a b : String),
       (investigate g a b).events.filter Event.isGameOverEv = []) ∧
    (∀ (g : Game) (a b : String),
       (doctorSave g a b).events.filter Event.isGameOverEv = []) ∧
    (∀ g : Game,
       (dayResolve g).1.state = GState.finished ∨
       ((dayResolve g).1.state = g.state ∧
        (dayResolve g).1.currentPhase = Phase.nightMafia)) := by
  have hcast : ∀ (ps : List Player) (a b : String),
      ((ps.map (fun p => Event.mafiaVoteCast p.socketId a b)).filter
        Event.isGameOverEv) = [] := by
    intro ps a b
    induction ps with
    | nil => rfl
    | cons p rest ih =>
      simp only [List.map_cons, List.filter_cons]
      rw [show (Event.isGameOverEv (Event.mafiaVoteCast p.socketId a b)) = false from rfl]
      simp only [Bool.false_eq_true, if_false]
      exact ih
  refine ⟨?_, ?_, ?_, ?_, fun g => dayResolve_state g⟩
  · intro g
    refine ⟨?_, ?_, ?_⟩
    · rw [resolveNight_eq, setPhase_day]
      exact resolveNightCore_state g
    · rw [resolveNight_eq, setPhase_day]
    · rw [resolveNight_eq, setPhase_day]
      dsimp only
      rw [List.filter_append, resolveNightCore_no_gameOver g]
      rfl
  · intro g a b
    unfold mafiaVote
    dsimp only
    split
    · rfl
    · split
      · rfl
      · split
        · rfl
        · split
          · rfl
          · split
            · rw [List.filter_append, hcast]
              simp only [setPhase]
              rw [setPhaseF_no_gameOver]
              rfl
            · rw [hcast]
  · intro g a b
    unfold investigate
    dsimp only
    split
    · rfl
    · split
      · rfl
      · split
        · rfl
        · split
          · rfl
          · dsimp only
            rw [List.filter_append]
            simp only [setPhase]
            rw [setPhaseF_no_gameOver]
            simp [Event.isGameOverEv]
  · intro g a b
    unfold doctorSave
    dsimp only
    split
    · rfl
    · split
      · rfl
      · split
        · rfl
        · rw [resolveNight_eq, setPhase_day]
          dsimp only
          rw [List.filter_append, resolveNightCore_no_gameOver]
          rfl

/-- C10 witness: resolving the example night kills the last town-sparing
margin yet the session stays InProgress and lands on Day with no
`gameOver` event. -/
theorem night_no_win_evaluation_witness :
    (resolveNight exNightGame).1.state = GState.inProgress ∧
    (resolveNight exNightGame).1.currentPhase = Phase.day ∧
    (resolveNight exNightGame).2.filter Event.isGameOverEv = [] := by
  have h := night_no_win_evaluation.1 exNightGame
  exact ⟨h.1, h.2.1, h.2.2⟩

theorem selectMafiaTarget_mem_cand (ps : List Player) (mv : VoteMap) (sel : String)
    (h : selectMafiaTarget ps mv = some sel) : sel ∈ candTargets ps mv := by
  unfold selectMafiaTarget at h
  dsimp only at h
  by_cases h1 : ((candTargets ps mv).length == 1) = true
  · rw [if_pos h1] at h
    exact List.mem_of_mem_head? h
  · rw [if_neg h1] at h
    by_cases h2 : 1 < (candTargets ps mv).length
    · rw [if_pos h2] at h
      have hc := List.find?_some h
      simpa using hc
    · rw [if_neg h2] at h
      exact Option.noConfusion h

theorem cand_lookup_eq_max (ps : List Player) (mv : VoteMap) (sel : String)
    (hnd : (ps.map (fun p => p.name)).Nodup) (h : sel ∈ candTargets ps mv) :
    lookup0 (tally ps mv) sel = listMax ((tally ps mv).map (fun q => q.2)) := by
  unfold candTargets at h
  dsimp only at h
  rcases List.mem_map.mp h with ⟨q, hqf, hq1⟩
  have hq := List.mem_filter.mp hqf
  have hkeys := tally_keys_nodup ps mv hnd
  have hl := lookup0_of_mem_nodup (tally ps mv) q hkeys hq.1
  rw [← hq1, hl]
  exact beq_iff_eq.mp hq.2

/-- C1: mafia-vote resolution.  A valid vote is recorded and resolution
runs exactly when the recorded vote count equals the number of currently
alive Mafia/Godfather players, recomputed at that moment; the selected
`mafiaTarget` always carries the maximal tallied vote count (each tally
entry counting the votes cast for that name), and when several candidates
tie at the maximum the casting order is scanned backwards so the most
recently cast vote among the tied candidates wins.  The worked examples:
votes A→X, B→X, C→Y in that order select X; votes A→X, B→Y (a 2-voter
tie) select the later-cast Y. -/
theorem mafiaVote_resolution_policy :
    (∀ (g : Game) (v t : String) (voter target : Player),
       g.state = .inProgress → g.currentPhase = .nightMafia →
       g.players.find? (fun p => isMafiaP p && p.name == v && p.isAlive) = some voter →
       mhas g.mafiaVotes v = false →
       g.players.find? (fun p => p.name == t && p.isAlive) = some target →
       (mafiaVote g v t).error = none ∧
       ((mset g.mafiaVotes v t).length = livingMafiaCount g.players →
          (mafiaVote g v t).game =
            (setPhase
              {g with
                 mafiaVotes := mset g.mafiaVotes v t,
                 mafiaTarget := selectMafiaTarget g.players (mset g.mafiaVotes v t)}
              .nightDetective).1) ∧
       ((mset g.mafiaVotes v t).length ≠ livingMafiaCount g.players →
          (mafiaVote g v t).game = {g with mafiaVotes := mset g.mafiaVotes v t})) ∧
    (∀ (ps : List Player) (mv : VoteMap) (sel : String),
       selectMafiaTarget ps mv = some sel → sel ∈ candTargets ps mv) ∧
    (∀ (ps : List Player) (mv : VoteMap) (sel : String),
       (ps.map (fun p => p.name)).Nodup → selectMafiaTarget ps mv = some sel →
       ∀ n : String, lookup0 (tally ps mv) n ≤ lookup0 (tally ps mv) sel) ∧
    (∀ (ps : List Player) (mv : VoteMap), 1 < (candTargets ps mv).length →
       selectMafiaTarget ps mv =
         (mvalues mv).reverse.find? (fun s => (candTargets ps mv).contains s)) ∧
    (∀ (ps : List Player) (mv : VoteMap) (n : String),
       (ps.map (fun p => p.name)).Nodup → n ∈ ps.map (fun p => p.name) →
       lookup0 (tally ps mv) n = ((mvalues mv).filter (fun s => s == n)).length) ∧
    selectMafiaTarget exMafiaPlayers [("A", "X"), ("B", "X"), ("C", "Y")] = some "X" ∧
    selectMafiaTarget exMafiaPlayers [("A", "X"), ("B", "Y")] = some "Y" := by
  refine ⟨?_, selectMafiaTarget_mem_cand, ?_, ?_, ?_, by decide, by decide⟩
  · intro g v t voter target h1 h2 h3 h4 h5
    have hguard : (!(g.state == GState.inProgress &&
        g.currentPhase == Phase.nightMafia)) = false := by
      rw [h1, h2]
      rfl
    have hvn : (g.players.find? (fun p =>
        isMafiaP p && p.name == v && p.isAlive)).isNone = false := by
      rw [h3]
      rfl
    have htn : (g.players.find? (fun p => p.name == t && p.isAlive)).isNone = false := by
      rw [h5]
      rfl
    unfold mafiaVote
    rw [hguard, hvn, h4, htn]
    simp only [Bool.false_eq_true, if_false]
    by_cases hlen : (mset g.mafiaVotes v t).length = livingMafiaCount g.players
    · have hb : ((mset g.mafiaVotes v t).length == livingMafiaCount g.players) = true :=
        beq_iff_eq.mpr hlen
      rw [hb]
      simp only [if_true]
      exact ⟨trivial, fun _ => trivial, fun hc => absurd hlen hc⟩
    · have hb : ((mset g.mafiaVotes v t).length == livingMafiaCount g.players) = false := by
        simpa using hlen
      rw [hb]
      simp only [Bool.false_eq_true, if_false]
      exact ⟨trivial, fun hc => absurd hc hlen, fun _ => trivial⟩
  · intro ps mv sel hnd hsel n
    have hmem := selectMafiaTarget_mem_cand ps mv sel hsel
    rw [cand_lookup_eq_max ps mv sel hnd hmem]
    exact lookup0_le_listMax (tally ps mv) n
  · intro ps mv h2
    unfold selectMafiaTarget
    dsimp only
    have h1 : ((candTargets ps mv).length == 1) = false := by
      have : (candTargets ps mv).length ≠ 1 := by omega
      simpa using this
    rw [h1]
    simp only [Bool.false_eq_true, if_false]
    rw [if_pos h2]
  · intro ps mv n hnd hn
    exact tally_count ps mv n hnd hn

/-- C1 witness: C casts the third mafia vote for Y; the ledger reaches the
living mafia count, resolution runs, and the selection picks X (majority);
the two spec examples evaluate as stated. -/
theorem mafiaVote_resolution_policy_witness :
    (mafiaVote exMafiaGame "C" "Y").error = none ∧
    (mafiaVote exMafiaGame "C" "Y").game =
      (setPhase {exMafiaGame with
          mafiaVotes := mset exMafiaGame.mafiaVotes "C" "Y",
          mafiaTarget := selectMafiaTarget exMafiaGame.players
            (mset exMafiaGame.mafiaVotes "C" "Y")} .nightDetective).1 := by
  have h := mafiaVote_resolution_policy.1 exMafiaGame "C" "Y"
    { name := "C", role := .godfather, isAlive := true }
    { name := "Y", role := .doctor, isAlive := true }
    rfl rfl (by decide) (by decide) (by decide)
  exact ⟨h.1, h.2.1 (by decide)⟩

/-- C2: day-vote resolution.  A valid day vote is recorded and resolution
runs exactly when the recorded vote count equals the current alive-player
count; the majority threshold is `(alive + 1) / 2`, the natural-number
form of `ceil(alive / 2)` (characterised below as the least k with
`alive ≤ 2k`); a candidate is eliminated (killed and recorded as
`lastKilled`) iff the top tallied count reaches the threshold, with ties
broken by the first candidate in tally-iteration order — which, for
distinct names, is roster/join order; when the threshold is not reached no
player changes; and the day votes are cleared unconditionally in both
cases.  The worked 6-player 3-3 tie eliminates T, the tied candidate
first in roster order. -/
theorem dayVote_resolution_policy :
    (∀ (g : Game) (v t : String) (voter target : Player),
       g.state = .inProgress → g.currentPhase = .day →
       g.players.find? (fun p => p.name == v && p.isAlive) = some voter →
       mhas g.votes v = false →
       g.players.find? (fun p => p.name == t && p.isAlive) = some target →
       (dayVote g v t).error = none ∧
       ((mset g.votes v t).length = aliveCount g.players →
          (dayVote g v t).game = (dayResolve {g with votes := mset g.votes v t}).1) ∧
       ((mset g.votes v t).length ≠ aliveCount g.players →
          (dayVote g v t).game = {g with votes := mset g.votes v t})) ∧
    (∀ g : Game, (dayResolve g).1.votes = []) ∧
    (∀ g : Game, dayEliminated g = none → (dayResolve g).1.players = g.players) ∧
    (∀ (g : Game) (e : String), dayEliminated g = some e → e ≠ "" →
       (dayResolve g).1.players = setDeadFirst g.players e ∧
       (dayResolve g).1.lastKilled = some e) ∧
    (∀ g : Game,
       listMax ((tally g.players g.votes).map (fun q => q.2)) <
           (aliveCount g.players + 1) / 2 →
         dayEliminated g = none) ∧
    (∀ g : Game,
       (aliveCount g.players + 1) / 2 ≤
           listMax ((tally g.players g.votes).map (fun q => q.2)) →
         dayEliminated g =
           (((tally g.players g.votes).filter (fun q =>
               q.2 == listMax ((tally g.players g.votes).map (fun r => r.2)))).map
             (fun q => q.1)).head?) ∧
    (∀ g : Game, (g.players.map (fun p => p.name)).Nodup →
       ((tally g.players g.votes).filter (fun q =>
           q.2 == listMax ((tally g.players g.votes).map (fun r => r.2)))).map
         (fun q => q.1) =
         (g.players.map (fun p => p.name)).filter (fun n =>
           lookup0 (tally g.players g.votes) n ==
             listMax ((tally g.players g.votes).map (fun r => r.2)))) ∧
    (∀ n : Nat, n ≤ 2 * ((n + 1) / 2) ∧ ∀ k : Nat, n ≤ 2 * k → (n + 1) / 2 ≤ k) ∧
    ((dayResolve exDayGame).1.lastKilled = some "T" ∧
     (dayResolve exDayGame).1.players.map (fun p => (p.name, p.isAlive)) =
       [("T", false), ("U", true), ("c3", true), ("c4", true),
        ("c5", true), ("c6", true)] ∧
     (dayResolve exDayGame).1.votes = []) := by
  refine ⟨?_, ?_, ?_, ?_, ?_, ?_, ?_, ?_, by decide, by decide, by decide⟩
  · intro g v t voter target h1 h2 h3 h4 h5
    have hguard : (!(g.state == GState.inProgress &&
        g.currentPhase == Phase.day)) = false := by
      rw [h1, h2]
      rfl
    have hvn : (g.players.find? (fun p => p.name == v && p.isAlive)).isNone = false := by
      rw [h3]
      rfl
    have htn : (g.players.find? (fun p => p.name == t && p.isAlive)).isNone = false := by
      rw [h5]
      rfl
    unfold dayVote
    rw [hguard, hvn, h4, htn]
    simp only [Bool.false_eq_true, if_false]
    by_cases hlen : (mset g.votes v t).length = aliveCount g.players
    · have hb : ((mset g.votes v t).length == aliveCount g.players) = true :=
        beq_iff_eq.mpr hlen
      rw [hb]
      simp only [if_true]
      exact ⟨trivial, fun _ => trivial, fun hc => absurd hlen hc⟩
    · have hb : ((mset g.votes v t).length == aliveCount g.players) = false := by
        simpa using hlen
      rw [hb]
      simp only [Bool.false_eq_true, if_false]
      exact ⟨trivial, fun hc => absurd hc hlen, fun _ => trivial⟩
  · intro g
    exact (dayResolve_fields g).2.2
  · intro g h
    have hstep : dayResolveStep g = (g, []) := by
      unfold dayResolveStep
      rw [h]
    have := (dayResolve_fields g).1
    rw [this, hstep]
  · intro g e h he
    have hb : (e != "") = true := bne_iff_ne.mpr he
    have hstep : dayResolveStep g =
        ({g with players := setDeadFirst g.players e, lastKilled := some e},
         [Event.playerEliminated e "vote", Event.dayVoteResult e]) := by
      unfold dayResolveStep
      rw [h]
      dsimp only
      rw [if_pos hb]
    obtain ⟨hp, hl, _⟩ := dayResolve_fields g
    rw [hp, hl, hstep]
    exact ⟨rfl, rfl⟩
  · intro g h
    unfold dayEliminated
    dsimp only
    rw [if_neg (not_le.mpr h)]
  · intro g h
    unfold dayEliminated
    dsimp only
    rw [if_pos h]
  · intro g hnd
    have h1 := filter_keys_eq (tally g.players g.votes)
      (listMax ((tally g.players g.votes).map (fun r => r.2)))
      (tally_keys_nodup g.players g.votes hnd)
    rw [h1, tally_keys g.players g.votes hnd]
  · intro n
    refine ⟨by omega, fun k hk => by omega⟩

/-- C2 witness: the example day session is one vote short; c6's vote for U
completes the ledger and resolution runs on the full ledger. -/
theorem dayVote_resolution_policy_witness :
    (dayVote exDayGamePartial "c6" "U").error = none ∧
    (dayVote exDayGamePartial "c6" "U").game =
      (dayResolve {exDayGamePartial with
        votes := mset exDayGamePartial.votes "c6" "U"}).1 := by
  have h := dayVote_resolution_policy.1 exDayGamePartial "c6" "U"
    { name := "c6", role := .doctor, isAlive := true }
    { name := "U", role := .villager, isAlive := true }
    rfl rfl (by decide) (by decide) (by decide)
  exact ⟨h.1, h.2.1 (by decide)⟩

/-- C3: role assignment at game start.  For every player count N ≥ 5 the
role construction succeeds with a sequence of length N whose multiset is
fixed by N: `floor(N/3)` mafia-aligned roles with exactly one Godfather
iff `floor(N/3) > 1`, exactly one Detective, exactly one Doctor, and the
rest Villagers; the Fisher-Yates shuffle yields a permutation of that
sequence for every random source; and `shuffled[i]` is assigned to
`players[i]` in original join order, preserving the roster's names. -/
theorem startGame_role_assignment (N : Nat) (rand : Nat → Nat) (hN : 5 ≤ N) :
    ∃ roles : List Role,
      buildRoles N = Except.ok roles ∧
      roles.length = N ∧
      List.Perm (shuffleArray rand roles) roles ∧
      roles.count Role.mafia + roles.count Role.godfather = N / 3 ∧
      roles.count Role.godfather = (if 1 < N / 3 then 1 else 0) ∧
      roles.count Role.detective = 1 ∧
      roles.count Role.doctor = 1 ∧
      roles.count Role.villager = N - N / 3 - 2 ∧
      roles.count Role.unassigned = 0 ∧
      (∀ ps : List Player, ps.length = N →
        (assignRoles ps (shuffleArray rand roles)).map (fun p => p.role) =
          shuffleArray rand roles ∧
        (assignRoles ps (shuffleArray rand roles)).map (fun p => p.name) =
          ps.map (fun p => p.name)) := by
  have hdiv : N / 3 + 2 ≤ N := by omega
  unfold buildRoles
  dsimp only
  by_cases hg : N / 3 > 1
  · rw [if_pos hg]
    have hcond : ¬((N : Int) - ((N / 3 - 1 + 1 + 2 : Nat) : Int) < 0) := by
      have h1 : N / 3 - 1 + 1 = N / 3 := by omega
      rw [h1]
      omega
    rw [if_neg hcond]
    refine ⟨_, rfl, ?_, shuffleArray_perm rand _, ?_, ?_, ?_, ?_, ?_, ?_, ?_⟩
    · simp only [List.length_append, List.length_replicate, List.length_cons,
        List.length_nil]
      omega
    · simp [List.count_append, List.count_replicate, List.count_cons,
        List.count_nil]
      all_goals omega
    · simp [List.count_append, List.count_replicate, List.count_cons,
        List.count_nil]
      all_goals omega
    · simp [List.count_append, List.count_replicate, List.count_cons,
        List.count_nil]
      all_goals omega
    · simp [List.count_append, List.count_replicate, List.count_cons,
        List.count_nil]
      all_goals omega
    · simp [List.count_append, List.count_replicate, List.count_cons,
        List.count_nil]
      all_goals omega
    · simp [List.count_append, List.count_replicate, List.count_cons,
        List.count_nil]
      all_goals omega
    · intro ps hps
      apply assignRoles_spec
      have hperm := shuffleArray_perm rand
        (List.replicate (N / 3 - 1) Role.mafia ++
         List.replicate 1 Role.godfather ++ [Role.detective, Role.doctor] ++
         List.replicate (N - (N / 3 - 1 + 1 + 2)) Role.villager)
      rw [hps, hperm.length_eq]
      simp only [List.length_append, List.length_replicate, List.length_cons,
        List.length_nil]
      omega
  · rw [if_neg hg]
    have hcond : ¬((N : Int) - ((N / 3 - 0 + 0 + 2 : Nat) : Int) < 0) := by
      have h1 : N / 3 - 0 + 0 = N / 3 := by omega
      rw [h1]
      omega
    rw [if_neg hcond]
    refine ⟨_, rfl, ?_, shuffleArray_perm rand _, ?_, ?_, ?_, ?_, ?_, ?_, ?_⟩
    · simp only [List.length_append, List.length_replicate, List.length_cons,
        List.length_nil]
      omega
    · simp [List.count_append, List.count_replicate, List.count_cons,
        List.count_nil]
      all_goals omega
    · simp [List.count_append, List.count_replicate, List.count_cons,
        List.count_nil]
      all_goals omega
    · simp [List.count_append, List.count_replicate, List.count_cons,
        List.count_nil]
      all_goals omega
    · simp [List.count_append, List.count_replicate, List.count_cons,
        List.count_nil]
      all_goals omega
    · simp [List.count_append, List.count_replicate, List.count_cons,
        List.count_nil]
      all_goals omega
    · simp [List.count_append, List.count_replicate, List.count_cons,
        List.count_nil]
      all_goals omega
    · intro ps hps
      apply assignRoles_spec
      have hperm := shuffleArray_perm rand
        (List.replicate (N / 3 - 0) Role.mafia ++
         List.replicate 0 Role.godfather ++ [Role.detective, Role.doctor] ++
         List.replicate (N - (N / 3 - 0 + 0 + 2)) Role.villager)
      rw [hps, hperm.length_eq]
      simp only [List.length_append, List.length_replicate, List.length_cons,
        List.length_nil]
      omega

/-- C3 witness: at N = 7 with a concrete random source the construction
succeeds, the shuffle is a permutation, and the multiset is the fixed one
(two mafia-aligned roles of which one Godfather, one Detective, one
Doctor, three Villagers). -/
theorem startGame_role_assignment_witness :
    ∃ roles : List Role,
      buildRoles 7 = Except.ok roles ∧
      roles.length = 7 ∧
      List.Perm (shuffleArray (fun i => i * 7 + 3) roles) roles ∧
      roles.count Role.godfather = 1 := by
  obtain ⟨roles, h1, h2, h3, _, h5, _⟩ :=
    startGame_role_assignment 7 (fun i => i * 7 + 3) (by decide)
  exact ⟨roles, h1, h2, h3, by rw [h5]; decide⟩

end Mafia
